import Mathlib

/-!
Shallow embedding of the Jukebox room coordination engine
(`server/src/rooms.js`, dispatch in `server/src/index.js`).

JS `Map`s (insertion-ordered) are modelled as association lists,
JS `Set`s as duplicate-free insertion-ordered lists, wall-clock
milliseconds and all JS numeric fields as rationals (exact arithmetic),
and WebSocket handles / nanoid identifiers as natural numbers drawn
from a fresh-name counter on the manager (nanoid IDs are collision-free
for the life of the process).  Every operation returns the updated
manager together with the list of `(socket, message)` deliveries it
performed, in delivery order.
-/

namespace Jukebox

/-- Model of a JS `Map` lookup (`m.get(k)`): first binding of the key. -/
def mapGet {α : Type} (l : List (Nat × α)) (k : Nat) : Option α :=
  match l with
  | [] => none
  | p :: t => if p.1 = k then some p.2 else mapGet t k

/-- Model of a JS `Map.set`: update in place when the key is present
(JS keeps the original insertion position), append otherwise. -/
def mapSet {α : Type} (l : List (Nat × α)) (k : Nat) (v : α) : List (Nat × α) :=
  match l with
  | [] => [(k, v)]
  | p :: t => if p.1 = k then (k, v) :: t else p :: mapSet t k v

/-- Model of a JS `Map.delete`. -/
def mapDelete {α : Type} (l : List (Nat × α)) (k : Nat) : List (Nat × α) :=
  match l with
  | [] => []
  | p :: t => if p.1 = k then mapDelete t k else p :: mapDelete t k

/-- Model of JS `String.prototype.trim`: strip leading and trailing
whitespace (computed structurally over the character list). -/
def jsTrim (s : String) : String :=
  String.mk (((s.data.dropWhile Char.isWhitespace).reverse.dropWhile
    Char.isWhitespace).reverse)

/-- Model of JS `String.prototype.slice(0, n)`: the first `n` characters. -/
def jsSlice (s : String) (n : Nat) : String :=
  String.mk (s.data.take n)

/-- Model of a JS `Set.add`: append if absent. -/
def setAdd (s : List Nat) (x : Nat) : List Nat :=
  if x ∈ s then s else s ++ [x]

/-- Model of a JS `Set.delete`. -/
def setDelete (s : List Nat) (x : Nat) : List Nat :=
  s.filter (fun y => y ≠ x)

/-- Predefined avatar colours (`USER_COLORS` in rooms.js). -/
def USER_COLORS : List String :=
  ["#FF5722", "#FF9800", "#FFC107", "#4CAF50", "#2196F3", "#9C27B0",
   "#E91E63", "#00BCD4", "#8BC34A", "#FF5252", "#69F0AE", "#40C4FF"]

/-- `Math.ceil(n / 2)` for a natural number `n`. -/
def ceilHalf (n : Nat) : Nat := (n + 1) / 2

/-- A queued track (rooms.js `addTrack` literal). -/
structure Track where
  id : Nat
  youtubeId : String
  title : String
  thumbnail : String
  duration : Nat
  addedBy : Nat
  addedByName : String
deriving Repr, DecidableEq

/-- The room's `playbackState` field: `"playing"` or `"paused"`. -/
inductive PlaybackState where
  | playing
  | paused
deriving Repr, DecidableEq

/-- A participant (rooms.js `joinRoom` literal). -/
structure User where
  id : Nat
  name : String
  color : String
deriving Repr, DecidableEq

/-- A room (rooms.js `createRoom` literal). -/
structure Room where
  id : Nat
  name : String
  createdAt : ℚ
  hostId : Option Nat
  queue : List Track
  currentIndex : Int
  playbackState : PlaybackState
  startedAt : ℚ
  elapsed : ℚ
  users : List (Nat × User)
  skipVotes : List Nat
  crossfadeDuration : ℚ
deriving Repr, DecidableEq

/-- Connection record: `connections` maps userId to `{ ws, roomId }`. -/
structure Conn where
  ws : Nat
  roomId : Nat
deriving Repr, DecidableEq

/-- The serialized room shape produced by `serializeRoom`. -/
structure SerializedRoom where
  id : Nat
  name : String
  hostId : Option Nat
  queue : List Track
  currentIndex : Int
  playbackState : PlaybackState
  elapsed : ℚ
  startedAt : ℚ
  users : List User
  skipVotes : Nat
  skipNeeded : Nat
  crossfadeDuration : ℚ
deriving Repr, DecidableEq

/-- Outbound message shapes (server → client). -/
inductive Msg where
  | roomError (message : String)
  | roomState (room : SerializedRoom) (userId : Nat)
  | queueUpdated (queue : List Track) (currentIndex : Int)
  | playbackSync (state : PlaybackState) (currentIndex : Int) (elapsed : ℚ)
      (timestamp : ℚ) (youtubeId : Option String)
  | userJoined (user : User)
  | userLeft (userId : Nat)
  | skipVotes (current : Nat) (needed : Nat)
  | chatMessage (userId : Nat) (userName : String) (text : String) (timestamp : ℚ)
  | crossfadeUpdated (duration : ℚ)
deriving Repr, DecidableEq

/-- The `RoomManager`'s mutable state, plus a fresh-name counter that
models nanoid's collision-free ID generation. -/
structure RoomManager where
  rooms : List (Nat × Room)
  connections : List (Nat × Conn)
  wsToUser : List (Nat × Nat)
  nextId : Nat
deriving Repr, DecidableEq

/-- A freshly constructed `RoomManager`. -/
def initialManager : RoomManager :=
  { rooms := [], connections := [], wsToUser := [], nextId := 0 }

/-- `serializeRoom` (rooms.js): elapsed is computed from `now` while playing. -/
def serializeRoom (room : Room) (now : ℚ) : SerializedRoom :=
  let elapsed :=
    if room.playbackState = PlaybackState.playing then (now - room.startedAt) / 1000
    else room.elapsed
  { id := room.id, name := room.name, hostId := room.hostId, queue := room.queue,
    currentIndex := room.currentIndex, playbackState := room.playbackState,
    elapsed := elapsed, startedAt := room.startedAt,
    users := room.users.map Prod.snd, skipVotes := room.skipVotes.length,
    skipNeeded := ceilHalf room.users.length,
    crossfadeDuration := room.crossfadeDuration }

/-- `broadcastToRoom` (rooms.js): deliver `payload` to every user of the room
that has a connection, in user-map insertion order, optionally excluding one
socket. -/
def broadcastToRoom (m : RoomManager) (roomId : Nat) (payload : Msg)
    (excludeWs : Option Nat) : List (Nat × Msg) :=
  match mapGet m.rooms roomId with
  | none => []
  | some room =>
    room.users.filterMap (fun p =>
      match mapGet m.connections p.1 with
      | none => none
      | some conn =>
        if some conn.ws = excludeWs then none else some (conn.ws, payload))

/-- The `playback:sync` payload computed by `broadcastPlaybackSync`. -/
def playbackSyncMsg (room : Room) (now : ℚ) : Msg :=
  let elapsed :=
    if room.playbackState = PlaybackState.playing then (now - room.startedAt) / 1000
    else room.elapsed
  let currentTrack : Option Track :=
    if room.currentIndex ≥ 0 then room.queue.get? room.currentIndex.toNat else none
  Msg.playbackSync room.playbackState room.currentIndex elapsed now
    (currentTrack.map Track.youtubeId)

/-- `broadcastPlaybackSync` (rooms.js). -/
def broadcastPlaybackSync (m : RoomManager) (roomId : Nat) (now : ℚ) :
    List (Nat × Msg) :=
  match mapGet m.rooms roomId with
  | none => []
  | some room => broadcastToRoom m roomId (playbackSyncMsg room now) none

/-- JS `userName || "Anonymous"`: the only falsy strings are `""` (and an
absent argument). -/
def jsOrString (s : Option String) (dflt : String) : String :=
  match s with
  | none => dflt
  | some v => if v = "" then dflt else v

/-- `createRoom` (rooms.js).  Returns the manager, the new room id and name. -/
def createRoom (m : RoomManager) (name : Option String) (now : ℚ) :
    RoomManager × Nat × String :=
  let id := m.nextId
  let roomName :=
    match name with
    | some s => if jsTrim s ≠ "" then jsSlice (jsTrim s) 64 else "Room " ++ toString id
    | none => "Room " ++ toString id
  let room : Room :=
    { id := id, name := roomName, createdAt := now, hostId := none,
      queue := [], currentIndex := -1, playbackState := PlaybackState.paused,
      startedAt := 0, elapsed := 0, users := [], skipVotes := [],
      crossfadeDuration := 3 }
  ({ m with rooms := mapSet m.rooms id room, nextId := m.nextId + 1 }, id, roomName)

/-- `joinRoom` (rooms.js). -/
def joinRoom (m : RoomManager) (roomId : Nat) (userName : Option String)
    (ws : Nat) (now : ℚ) : RoomManager × List (Nat × Msg) :=
  match mapGet m.rooms roomId with
  | none => (m, [(ws, Msg.roomError "Room not found")])
  | some room =>
    let userId := m.nextId
    let colorIndex := room.users.length % USER_COLORS.length
    let user : User :=
      { id := userId,
        name := jsSlice (jsTrim (jsOrString userName "Anonymous")) 24,
        color := USER_COLORS.getD colorIndex "" }
    let room1 := if room.users.length = 0 then { room with hostId := some userId } else room
    let room2 := { room1 with users := mapSet room1.users userId user }
    let m1 : RoomManager :=
      { m with rooms := mapSet m.rooms roomId room2,
               connections := mapSet m.connections userId ⟨ws, roomId⟩,
               wsToUser := mapSet m.wsToUser ws userId,
               nextId := m.nextId + 1 }
    (m1, (ws, Msg.roomState (serializeRoom room2 now) userId)
          :: broadcastToRoom m1 roomId (Msg.userJoined user) (some ws))

/-- `leaveRoom` (rooms.js): connection cleanup, vote removal, `user:left`
broadcast, host migration, empty-room pruning — in the source order. -/
def leaveRoom (m : RoomManager) (userId : Nat) : RoomManager × List (Nat × Msg) :=
  match mapGet m.connections userId with
  | none => (m, [])
  | some conn =>
    let m1 : RoomManager :=
      { m with connections := mapDelete m.connections userId,
               wsToUser := mapDelete m.wsToUser conn.ws }
    match mapGet m1.rooms conn.roomId with
    | none => (m1, [])
    | some room =>
      let room1 := { room with users := mapDelete room.users userId,
                               skipVotes := setDelete room.skipVotes userId }
      let m2 := { m1 with rooms := mapSet m1.rooms conn.roomId room1 }
      let msgs := broadcastToRoom m2 conn.roomId (Msg.userLeft userId) none
      let room2 :=
        if room1.hostId = some userId ∧ room1.users.length > 0 then
          { room1 with hostId := (room1.users.head?).map Prod.fst }
        else room1
      let m3 := { m2 with rooms := mapSet m2.rooms conn.roomId room2 }
      let m4 :=
        if room2.users.length = 0 then
          { m3 with rooms := mapDelete m3.rooms conn.roomId }
        else m3
      (m4, msgs)

/-- `leaveByWs` (rooms.js). -/
def leaveByWs (m : RoomManager) (ws : Nat) : RoomManager × List (Nat × Msg) :=
  match mapGet m.wsToUser ws with
  | none => (m, [])
  | some userId => leaveRoom m userId

/-- Resolved track metadata handed to `addTrack`. -/
structure TrackData where
  youtubeId : String
  title : String
  thumbnail : String
deriving Repr, DecidableEq

/-- `addTrack` (rooms.js): append, auto-start when idle, broadcast. -/
def addTrack (m : RoomManager) (userId : Nat) (td : TrackData) (now : ℚ) :
    RoomManager × List (Nat × Msg) :=
  match mapGet m.connections userId with
  | none => (m, [])
  | some conn =>
    match mapGet m.rooms conn.roomId with
    | none => (m, [])
    | some room =>
      let user := mapGet room.users userId
      let track : Track :=
        { id := m.nextId, youtubeId := td.youtubeId, title := td.title,
          thumbnail := td.thumbnail, duration := 0, addedBy := userId,
          addedByName := match user with | some u => u.name | none => "Unknown" }
      let room1 := { room with queue := room.queue ++ [track] }
      let room2 :=
        if room1.currentIndex = -1 then
          { room1 with currentIndex := 0, elapsed := 0, startedAt := now,
                       playbackState := PlaybackState.playing }
        else room1
      let m1 := { m with rooms := mapSet m.rooms conn.roomId room2,
                         nextId := m.nextId + 1 }
      (m1, broadcastToRoom m1 conn.roomId
             (Msg.queueUpdated room2.queue room2.currentIndex) none
           ++ broadcastPlaybackSync m1 conn.roomId now)

/-- `removeTrack` (rooms.js): permission check, splice, index fix-up,
vote clearing, broadcast. -/
def removeTrack (m : RoomManager) (userId : Nat) (trackId : Nat) (now : ℚ) :
    RoomManager × List (Nat × Msg) :=
  match mapGet m.connections userId with
  | none => (m, [])
  | some conn =>
    match mapGet m.rooms conn.roomId with
    | none => (m, [])
    | some room =>
      match room.queue.findIdx? (fun t => t.id == trackId) with
      | none => (m, [])
      | some trackIndex =>
        match room.queue.get? trackIndex with
        | none => (m, [])
        | some track =>
          let isHost := room.hostId = some userId
          let isOwner := track.addedBy = userId
          if ¬isHost ∧ ¬isOwner then (m, [])
          else
            let room1 := { room with queue := room.queue.eraseIdx trackIndex }
            let room2 :=
              if (trackIndex : Int) < room1.currentIndex then
                { room1 with currentIndex := room1.currentIndex - 1 }
              else if (trackIndex : Int) = room1.currentIndex then
                let r :=
                  if room1.queue.length = 0 then
                    { room1 with currentIndex := -1,
                                 playbackState := PlaybackState.paused, elapsed := 0 }
                  else if room1.currentIndex ≥ (room1.queue.length : Int) then
                    { room1 with currentIndex := (room1.queue.length : Int) - 1,
                                 startedAt := now, elapsed := 0,
                                 playbackState := PlaybackState.playing }
                  else
                    { room1 with startedAt := now, elapsed := 0,
                                 playbackState := PlaybackState.playing }
                { r with skipVotes := [] }
              else room1
            let m1 := { m with rooms := mapSet m.rooms conn.roomId room2 }
            (m1, broadcastToRoom m1 conn.roomId
                   (Msg.queueUpdated room2.queue room2.currentIndex) none
                 ++ broadcastPlaybackSync m1 conn.roomId now)

/-- `_roomForUser` (rooms.js).  Also returns the map key the room lives
under (`conn.roomId`), because the source mutates the room object in place. -/
def roomForUser (m : RoomManager) (userId : Nat) : Option (Nat × Room) :=
  match mapGet m.connections userId with
  | none => none
  | some conn => (mapGet m.rooms conn.roomId).map (fun r => (conn.roomId, r))

/-- `play` (rooms.js). -/
def play (m : RoomManager) (userId : Nat) (now : ℚ) :
    RoomManager × List (Nat × Msg) :=
  match roomForUser m userId with
  | none => (m, [])
  | some (key, room) =>
    if room.currentIndex = -1 ∨ room.playbackState = PlaybackState.playing then (m, [])
    else
      let room1 := { room with startedAt := now - room.elapsed * 1000,
                               playbackState := PlaybackState.playing }
      let m1 := { m with rooms := mapSet m.rooms key room1 }
      (m1, broadcastPlaybackSync m1 room.id now)

/-- `pause` (rooms.js). -/
def pause (m : RoomManager) (userId : Nat) (now : ℚ) :
    RoomManager × List (Nat × Msg) :=
  match roomForUser m userId with
  | none => (m, [])
  | some (key, room) =>
    if room.playbackState = PlaybackState.paused then (m, [])
    else
      let room1 := { room with elapsed := (now - room.startedAt) / 1000,
                               playbackState := PlaybackState.paused }
      let m1 := { m with rooms := mapSet m.rooms key room1 }
      (m1, broadcastPlaybackSync m1 room.id now)

/-- `nextTrack` (rooms.js). -/
def nextTrack (m : RoomManager) (roomId : Nat) (now : ℚ) :
    RoomManager × List (Nat × Msg) :=
  match mapGet m.rooms roomId with
  | none => (m, [])
  | some room =>
    let room1 := { room with skipVotes := [] }
    let room2 :=
      if room1.queue.length = 0 then
        { room1 with currentIndex := -1, playbackState := PlaybackState.paused,
                     elapsed := 0 }
      else if room1.currentIndex < (room1.queue.length : Int) - 1 then
        { room1 with currentIndex := room1.currentIndex + 1, elapsed := 0,
                     startedAt := now, playbackState := PlaybackState.playing }
      else
        { room1 with currentIndex := -1, playbackState := PlaybackState.paused,
                     elapsed := 0 }
    let m1 := { m with rooms := mapSet m.rooms roomId room2 }
    (m1, broadcastToRoom m1 roomId
           (Msg.queueUpdated room2.queue room2.currentIndex) none
         ++ broadcastPlaybackSync m1 roomId now)

/-- `skip` (rooms.js): record the vote, broadcast the tally, advance when
the majority threshold is met. -/
def skip (m : RoomManager) (userId : Nat) (now : ℚ) :
    RoomManager × List (Nat × Msg) :=
  match roomForUser m userId with
  | none => (m, [])
  | some (key, room) =>
    if room.currentIndex = -1 then (m, [])
    else
      let room1 := { room with skipVotes := setAdd room.skipVotes userId }
      let m1 := { m with rooms := mapSet m.rooms key room1 }
      let needed := ceilHalf room1.users.length
      let current := room1.skipVotes.length
      let voteMsgs := broadcastToRoom m1 room.id (Msg.skipVotes current needed) none
      if current ≥ needed then
        let res := nextTrack m1 room.id now
        (res.1, voteMsgs ++ res.2)
      else (m1, voteMsgs)

/-- `seek` (rooms.js).  The `Number(time) || 0` coercion is folded into the
rational argument; `Math.max(0, ·)` is kept. -/
def seek (m : RoomManager) (userId : Nat) (time : ℚ) (now : ℚ) :
    RoomManager × List (Nat × Msg) :=
  match roomForUser m userId with
  | none => (m, [])
  | some (key, room) =>
    if room.currentIndex = -1 then (m, [])
    else
      let seekTime := max 0 time
      let room1 :=
        if room.playbackState = PlaybackState.playing then
          { room with startedAt := now - seekTime * 1000 }
        else
          { room with elapsed := seekTime }
      let m1 := { m with rooms := mapSet m.rooms key room1 }
      (m1, broadcastPlaybackSync m1 room.id now)

/-- A JSON-decodable JavaScript value, as far as the chat payload needs. -/
inductive JSVal where
  | vNull
  | vStr (s : String)
  | vNum (n : Int)
  | vBool (b : Bool)
deriving Repr, DecidableEq

/-- JS truthiness for the modelled values. -/
def JSVal.truthy : JSVal → Bool
  | JSVal.vNull => false
  | JSVal.vStr s => s ≠ ""
  | JSVal.vNum n => n ≠ 0
  | JSVal.vBool b => b

/-- JS `String(·)` for the modelled values. -/
def JSVal.toJSString : JSVal → String
  | JSVal.vNull => "null"
  | JSVal.vStr s => s
  | JSVal.vNum n => toString n
  | JSVal.vBool b => if b then "true" else "false"

/-- The chat sanitizer `String(text || "").trim().slice(0, 500)`. -/
def chatSanitize (text : JSVal) : String :=
  jsSlice (jsTrim ((if text.truthy then text else JSVal.vStr "").toJSString)) 500

/-- `chat` (rooms.js): sanitize, drop if empty, otherwise broadcast to the
whole room (sender included); nothing is stored. -/
def chat (m : RoomManager) (userId : Nat) (text : JSVal) (now : ℚ) :
    RoomManager × List (Nat × Msg) :=
  match mapGet m.connections userId with
  | none => (m, [])
  | some conn =>
    match mapGet m.rooms conn.roomId with
    | none => (m, [])
    | some room =>
      match mapGet room.users userId with
      | none => (m, [])
      | some user =>
        let sanitized := chatSanitize text
        if sanitized = "" then (m, [])
        else
          (m, broadcastToRoom m conn.roomId
                (Msg.chatMessage userId user.name sanitized now) none)

/-- `setCrossfade` (rooms.js).  The `Number(duration) || 0` coercion is folded
into the rational argument; the clamp to `[0, 8]` is kept. -/
def setCrossfade (m : RoomManager) (userId : Nat) (duration : ℚ) :
    RoomManager × List (Nat × Msg) :=
  match mapGet m.connections userId with
  | none => (m, [])
  | some conn =>
    match mapGet m.rooms conn.roomId with
    | none => (m, [])
    | some room =>
      let clamped := max 0 (min 8 duration)
      let room1 := { room with crossfadeDuration := clamped }
      let m1 := { m with rooms := mapSet m.rooms conn.roomId room1 }
      (m1, broadcastToRoom m1 conn.roomId (Msg.crossfadeUpdated clamped) none)

/-! ### Association-list lemmas -/

theorem mapGet_mapSet_self {α : Type} (l : List (Nat × α)) (k : Nat) (v : α) :
    mapGet (mapSet l k v) k = some v := by
  induction l with
  | nil => simp [mapSet, mapGet]
  | cons p t ih =>
    by_cases h : p.1 = k <;> simp [mapSet, mapGet, h, ih]

theorem mapGet_mapSet_ne {α : Type} (l : List (Nat × α)) (k k' : Nat) (v : α)
    (h : k' ≠ k) : mapGet (mapSet l k v) k' = mapGet l k' := by
  induction l with
  | nil => simp [mapSet, mapGet, Ne.symm h]
  | cons p t ih =>
    by_cases hp : p.1 = k
    · simp [mapSet, mapGet, hp, Ne.symm h]
    · by_cases hq : p.1 = k' <;> simp [mapSet, mapGet, hp, hq, ih, h, Ne.symm h]

theorem mapGet_mapDelete_self {α : Type} (l : List (Nat × α)) (k : Nat) :
    mapGet (mapDelete l k) k = none := by
  induction l with
  | nil => simp [mapDelete, mapGet]
  | cons p t ih =>
    by_cases h : p.1 = k <;> simp [mapDelete, mapGet, h, ih]

theorem mapGet_mapDelete_ne {α : Type} (l : List (Nat × α)) (k k' : Nat)
    (h : k' ≠ k) : mapGet (mapDelete l k) k' = mapGet l k' := by
  induction l with
  | nil => simp [mapDelete]
  | cons p t ih =>
    by_cases hp : p.1 = k
    · have : p.1 ≠ k' := by rw [hp]; exact Ne.symm h
      simp [mapDelete, mapGet, hp, this, ih, h, Ne.symm h]
    · by_cases hq : p.1 = k' <;> simp [mapDelete, mapGet, hp, hq, ih, h, Ne.symm h]

theorem mapSet_mapSet_self {α : Type} (l : List (Nat × α)) (k : Nat) (v w : α) :
    mapSet (mapSet l k v) k w = mapSet l k w := by
  induction l with
  | nil => simp [mapSet]
  | cons p t ih =>
    by_cases h : p.1 = k <;> simp [mapSet, h, ih]

theorem mapDelete_mapSet_self {α : Type} (l : List (Nat × α)) (k : Nat) (v : α) :
    mapDelete (mapSet l k v) k = mapDelete l k := by
  induction l with
  | nil => simp [mapSet, mapDelete]
  | cons p t ih =>
    by_cases h : p.1 = k <;> simp [mapSet, mapDelete, h, ih]

theorem mem_mapSet {α : Type} {k : Nat} {v : α} {p : Nat × α} :
    ∀ {l : List (Nat × α)}, p ∈ mapSet l k v → p = (k, v) ∨ p ∈ l := by
  intro l
  induction l with
  | nil => intro h; simpa [mapSet] using h
  | cons q t ih =>
    intro h
    by_cases hq : q.1 = k
    · simp only [mapSet, if_pos hq, List.mem_cons] at h
      rcases h with h | h
      · exact Or.inl h
      · exact Or.inr (List.mem_cons_of_mem _ h)
    · simp only [mapSet, if_neg hq, List.mem_cons] at h
      rcases h with h | h
      · exact Or.inr (h ▸ List.mem_cons_self _ _)
      · rcases ih h with h' | h'
        · exact Or.inl h'
        · exact Or.inr (List.mem_cons_of_mem _ h')

theorem mem_mapDelete {α : Type} {k : Nat} {p : Nat × α} :
    ∀ {l : List (Nat × α)}, p ∈ mapDelete l k → p ∈ l := by
  intro l
  induction l with
  | nil => intro h; simp [mapDelete] at h
  | cons q t ih =>
    intro h
    by_cases hq : q.1 = k
    · simp only [mapDelete, if_pos hq] at h
      exact List.mem_cons_of_mem _ (ih h)
    · simp only [mapDelete, if_neg hq, List.mem_cons] at h
      rcases h with h | h
      · exact h ▸ List.mem_cons_self _ _
      · exact List.mem_cons_of_mem _ (ih h)

theorem mapGet_mem {α : Type} {k : Nat} {v : α} :
    ∀ {l : List (Nat × α)}, mapGet l k = some v → (k, v) ∈ l := by
  intro l
  induction l with
  | nil => intro h; simp [mapGet] at h
  | cons q t ih =>
    intro h
    by_cases hq : q.1 = k
    · simp only [mapGet, if_pos hq] at h
      cases h
      exact (Prod.ext hq rfl : q = (k, q.2)) ▸ List.mem_cons_self _ _
    · simp only [mapGet, if_neg hq] at h
      exact List.mem_cons_of_mem _ (ih h)

theorem setAdd_of_mem {s : List Nat} {x : Nat} (h : x ∈ s) : setAdd s x = s := by
  simp [setAdd, h]

/-! ### Invariant I1 -/

/-- Invariant I1 for a single room: `currentIndex` is `-1` (nothing
scheduled) or a valid index into `queue`.  This also forces
`currentIndex = -1` whenever the queue is empty. -/
def RoomInv (r : Room) : Prop :=
  r.currentIndex = -1 ∨ (0 ≤ r.currentIndex ∧ r.currentIndex < r.queue.length)

/-- I1 for every room of an association list. -/
def RoomsInv (l : List (Nat × Room)) : Prop :=
  ∀ p ∈ l, RoomInv p.2

/-- I1 for every room owned by the manager. -/
def MgrInv (m : RoomManager) : Prop :=
  RoomsInv m.rooms

theorem roomsInv_mapSet {l : List (Nat × Room)} {k : Nat} {v : Room}
    (h : RoomsInv l) (hv : RoomInv v) : RoomsInv (mapSet l k v) := by
  intro p hp
  rcases mem_mapSet hp with h' | h'
  · rw [h']; exact hv
  · exact h p h'

theorem roomsInv_mapDelete {l : List (Nat × Room)} {k : Nat}
    (h : RoomsInv l) : RoomsInv (mapDelete l k) :=
  fun p hp => h p (mem_mapDelete hp)

theorem roomsInv_get {l : List (Nat × Room)} {k : Nat} {r : Room}
    (h : RoomsInv l) (hg : mapGet l k = some r) : RoomInv r :=
  h (k, r) (mapGet_mem hg)

theorem roomInv_of_eq {r r' : Room} (h : RoomInv r) (hq : r'.queue = r.queue)
    (hc : r'.currentIndex = r.currentIndex) : RoomInv r' := by
  unfold RoomInv at *
  rw [hq, hc]
  exact h

theorem roomInv_ite {c : Prop} [Decidable c] {a b : Room}
    (ha : RoomInv a) (hb : RoomInv b) : RoomInv (if c then a else b) := by
  split <;> assumption

theorem mgrInv_ite {c : Prop} [Decidable c] {a b : RoomManager}
    (ha : MgrInv a) (hb : MgrInv b) : MgrInv (if c then a else b) := by
  split <;> assumption

theorem roomForUser_some {m : RoomManager} {u key : Nat} {room : Room}
    (h : roomForUser m u = some (key, room)) : mapGet m.rooms key = some room := by
  unfold roomForUser at h
  split at h
  · exact absurd h (by simp)
  rename_i conn hc
  cases hr : mapGet m.rooms conn.roomId with
  | none => rw [hr] at h; simp at h
  | some r =>
    rw [hr] at h
    simp only [Option.map_some', Option.some.injEq, Prod.mk.injEq] at h
    rw [← h.1, hr, h.2]

theorem inv_createRoom (m : RoomManager) (name : Option String) (now : ℚ)
    (h : MgrInv m) : MgrInv (createRoom m name now).1 := by
  simp only [createRoom]
  exact roomsInv_mapSet h (Or.inl rfl)

theorem inv_joinRoom (m : RoomManager) (rid : Nat) (un : Option String)
    (ws : Nat) (now : ℚ) (h : MgrInv m) : MgrInv (joinRoom m rid un ws now).1 := by
  cases hg : mapGet m.rooms rid with
  | none => simp only [joinRoom, hg]; exact h
  | some room =>
    simp only [joinRoom, hg]
    refine roomsInv_mapSet h ?_
    have hr := roomsInv_get h hg
    unfold RoomInv at hr ⊢
    split <;> simpa using hr

theorem inv_leaveRoom (m : RoomManager) (u : Nat) (h : MgrInv m) :
    MgrInv (leaveRoom m u).1 := by
  unfold leaveRoom
  split
  · exact h
  rename_i conn hc
  dsimp only
  split
  · exact h
  rename_i room hg
  dsimp only at hg ⊢
  have hr := roomsInv_get h hg
  refine mgrInv_ite ?_ ?_
  · exact roomsInv_mapDelete (roomsInv_mapSet (roomsInv_mapSet h
      (roomInv_of_eq hr rfl rfl))
      (roomInv_ite (roomInv_of_eq hr rfl rfl) (roomInv_of_eq hr rfl rfl)))
  · exact roomsInv_mapSet (roomsInv_mapSet h (roomInv_of_eq hr rfl rfl))
      (roomInv_ite (roomInv_of_eq hr rfl rfl) (roomInv_of_eq hr rfl rfl))

theorem inv_leaveByWs (m : RoomManager) (ws : Nat) (h : MgrInv m) :
    MgrInv (leaveByWs m ws).1 := by
  cases hw : mapGet m.wsToUser ws with
  | none => simp only [leaveByWs, hw]; exact h
  | some u => simp only [leaveByWs, hw]; exact inv_leaveRoom m u h

theorem inv_addTrack (m : RoomManager) (u : Nat) (td : TrackData) (now : ℚ)
    (h : MgrInv m) : MgrInv (addTrack m u td now).1 := by
  cases hc : mapGet m.connections u with
  | none => simp only [addTrack, hc]; exact h
  | some conn =>
    simp only [addTrack, hc]
    cases hg : mapGet m.rooms conn.roomId with
    | none => simp only [hg]; exact h
    | some room =>
      simp only [hg]
      refine roomsInv_mapSet h ?_
      have hr := roomsInv_get h hg
      unfold RoomInv at hr ⊢
      split
      next hcond => simp
      next hcond => simp only [List.length_append] at *; rcases hr with hr | hr
                    · exact absurd hr hcond
                    · right; constructor
                      · exact hr.1
                      · have := hr.2; push_cast at *; omega

theorem inv_removeTrack (m : RoomManager) (u tid : Nat) (now : ℚ)
    (h : MgrInv m) : MgrInv (removeTrack m u tid now).1 := by
  unfold removeTrack
  split
  · exact h
  rename_i conn hc
  split
  · exact h
  rename_i room hg
  split
  · exact h
  rename_i trackIndex hf
  split
  · exact h
  rename_i track hq
  dsimp only
  split
  · exact h
  have hlen : trackIndex < room.queue.length := (List.get?_eq_some.mp hq).1
  have hel : (room.queue.eraseIdx trackIndex).length = room.queue.length - 1 := by
    rw [List.length_eraseIdx]; simp [hlen]
  refine roomsInv_mapSet h ?_
  have hr := roomsInv_get h hg
  unfold RoomInv at hr ⊢
  split_ifs <;> dsimp only at * <;> omega

theorem inv_play (m : RoomManager) (u : Nat) (now : ℚ) (h : MgrInv m) :
    MgrInv (play m u now).1 := by
  cases hru : roomForUser m u with
  | none => simp only [play, hru]; exact h
  | some kr =>
    obtain ⟨key, room⟩ := kr
    have hg := roomForUser_some hru
    simp only [play, hru]
    split
    · exact h
    · refine roomsInv_mapSet h ?_
      have hr := roomsInv_get h hg
      unfold RoomInv at hr ⊢; simpa using hr

theorem inv_pause (m : RoomManager) (u : Nat) (now : ℚ) (h : MgrInv m) :
    MgrInv (pause m u now).1 := by
  cases hru : roomForUser m u with
  | none => simp only [pause, hru]; exact h
  | some kr =>
    obtain ⟨key, room⟩ := kr
    have hg := roomForUser_some hru
    simp only [pause, hru]
    split
    · exact h
    · refine roomsInv_mapSet h ?_
      have hr := roomsInv_get h hg
      unfold RoomInv at hr ⊢; simpa using hr

theorem inv_seek (m : RoomManager) (u : Nat) (time now : ℚ) (h : MgrInv m) :
    MgrInv (seek m u time now).1 := by
  cases hru : roomForUser m u with
  | none => simp only [seek, hru]; exact h
  | some kr =>
    obtain ⟨key, room⟩ := kr
    have hg := roomForUser_some hru
    simp only [seek, hru]
    split
    · exact h
    · refine roomsInv_mapSet h ?_
      have hr := roomsInv_get h hg
      unfold RoomInv at hr ⊢
      split <;> simpa using hr

theorem inv_nextTrack (m : RoomManager) (rid : Nat) (now : ℚ) (h : MgrInv m) :
    MgrInv (nextTrack m rid now).1 := by
  cases hg : mapGet m.rooms rid with
  | none => simp only [nextTrack, hg]; exact h
  | some room =>
    simp only [nextTrack, hg]
    refine roomsInv_mapSet h ?_
    have hr := roomsInv_get h hg
    unfold RoomInv at hr ⊢
    split_ifs <;> dsimp only at * <;> omega

theorem inv_skip (m : RoomManager) (u : Nat) (now : ℚ) (h : MgrInv m) :
    MgrInv (skip m u now).1 := by
  unfold skip
  split
  · exact h
  rename_i key room hru
  have hg := roomForUser_some hru
  have hr := roomsInv_get h hg
  dsimp only
  split
  · exact h
  have hm1 : MgrInv { m with rooms := mapSet m.rooms key { room with skipVotes := setAdd room.skipVotes u } } :=
    roomsInv_mapSet h (roomInv_of_eq hr rfl rfl)
  split
  · exact inv_nextTrack _ room.id now hm1
  · exact hm1

theorem inv_chat (m : RoomManager) (u : Nat) (text : JSVal) (now : ℚ)
    (h : MgrInv m) : MgrInv (chat m u text now).1 := by
  unfold chat
  split
  · exact h
  rename_i conn hc
  split
  · exact h
  rename_i room hg
  split
  · exact h
  rename_i user hu
  dsimp only
  split <;> exact h

theorem inv_setCrossfade (m : RoomManager) (u : Nat) (d : ℚ) (h : MgrInv m) :
    MgrInv (setCrossfade m u d).1 := by
  cases hc : mapGet m.connections u with
  | none => simp only [setCrossfade, hc]; exact h
  | some conn =>
    simp only [setCrossfade, hc]
    cases hg : mapGet m.rooms conn.roomId with
    | none => simp only [hg]; exact h
    | some room =>
      simp only [hg]
      refine roomsInv_mapSet h ?_
      have hr := roomsInv_get h hg
      unfold RoomInv at hr ⊢; simpa using hr

/-- An inbound operation dispatched by the WebSocket message handler
(index.js), applied to the manager. -/
inductive Op where
  | join (roomId : Nat) (userName : Option String) (ws : Nat) (now : ℚ)
  | leave (userId : Nat)
  | disconnect (ws : Nat)
  | add (userId : Nat) (td : TrackData) (now : ℚ)
  | remove (userId : Nat) (trackId : Nat) (now : ℚ)
  | playOp (userId : Nat) (now : ℚ)
  | pauseOp (userId : Nat) (now : ℚ)
  | seekOp (userId : Nat) (time : ℚ) (now : ℚ)
  | skipOp (userId : Nat) (now : ℚ)
  | chatOp (userId : Nat) (text : JSVal) (now : ℚ)
  | crossfadeOp (userId : Nat) (duration : ℚ)

/-- One inbound operation's effect on the manager state. -/
def step (m : RoomManager) : Op → RoomManager
  | Op.join rid un ws now => (joinRoom m rid un ws now).1
  | Op.leave u => (leaveRoom m u).1
  | Op.disconnect ws => (leaveByWs m ws).1
  | Op.add u td now => (addTrack m u td now).1
  | Op.remove u tid now => (removeTrack m u tid now).1
  | Op.playOp u now => (play m u now).1
  | Op.pauseOp u now => (pause m u now).1
  | Op.seekOp u t now => (seek m u t now).1
  | Op.skipOp u now => (skip m u now).1
  | Op.chatOp u t now => (chat m u t now).1
  | Op.crossfadeOp u d => (setCrossfade m u d).1

/-- Run a sequence of inbound operations. -/
def run (m : RoomManager) (ops : List Op) : RoomManager :=
  ops.foldl step m

theorem inv_step (m : RoomManager) (op : Op) (h : MgrInv m) : MgrInv (step m op) := by
  cases op with
  | join rid un ws now => exact inv_joinRoom m rid un ws now h
  | leave u => exact inv_leaveRoom m u h
  | disconnect ws => exact inv_leaveByWs m ws h
  | add u td now => exact inv_addTrack m u td now h
  | remove u tid now => exact inv_removeTrack m u tid now h
  | playOp u now => exact inv_play m u now h
  | pauseOp u now => exact inv_pause m u now h
  | seekOp u t now => exact inv_seek m u t now h
  | skipOp u now => exact inv_skip m u now h
  | chatOp u t now => exact inv_chat m u t now h
  | crossfadeOp u d => exact inv_setCrossfade m u d h

theorem inv_run (ops : List Op) : ∀ m : RoomManager, MgrInv m → MgrInv (run m ops) := by
  induction ops with
  | nil => intro m h; exact h
  | cons op t ih => intro m h; exact ih (step m op) (inv_step m op h)

/-! ### Claims -/

/-- C10: every room returned by `createRoom` starts with
`crossfadeDuration = 3` (inside `[0, 8]` and nonzero), an empty queue,
`currentIndex = -1`, paused playback, `elapsed = 0`, no host, no users and
no skip votes. -/
theorem claim_C10 (m : RoomManager) (name : Option String) (now : ℚ) :
    ∃ room : Room,
      mapGet (createRoom m name now).1.rooms (createRoom m name now).2.1 = some room ∧
      room.crossfadeDuration = 3 ∧ room.crossfadeDuration ≠ 0 ∧
      0 ≤ room.crossfadeDuration ∧ room.crossfadeDuration ≤ 8 ∧
      room.queue = [] ∧ room.currentIndex = -1 ∧
      room.playbackState = PlaybackState.paused ∧ room.elapsed = 0 ∧
      room.hostId = none ∧ room.users = [] ∧ room.skipVotes = [] := by
  refine ⟨{ id := m.nextId, name := (createRoom m name now).2.2, createdAt := now,
            hostId := none, queue := [], currentIndex := -1,
            playbackState := PlaybackState.paused, startedAt := 0, elapsed := 0,
            users := [], skipVotes := [], crossfadeDuration := 3 },
    ?_, rfl, by norm_num, by norm_num, by norm_num, rfl, rfl, rfl, rfl, rfl, rfl, rfl⟩
  simp only [createRoom]
  exact mapGet_mapSet_self _ _ _

/-- C3: starting from a freshly created room, after every sequence of
inbound operations (join, leave, disconnect, addTrack, removeTrack, play,
pause, seek, skip with its induced nextTrack, chat, setCrossfade) every
room satisfies I1: `currentIndex` is `-1` or a valid queue index; in
particular an empty queue forces `currentIndex = -1`, and a nonnegative
`currentIndex` is always in range. -/
theorem claim_C3 (name : Option String) (now : ℚ) (ops : List Op) :
    ∀ p ∈ (run (createRoom initialManager name now).1 ops).rooms,
      (p.2.currentIndex = -1 ∨ (0 ≤ p.2.currentIndex ∧ p.2.currentIndex < p.2.queue.length)) ∧
      (p.2.queue.length = 0 → p.2.currentIndex = -1) ∧
      (0 ≤ p.2.currentIndex → p.2.currentIndex < p.2.queue.length) := by
  intro p hp
  have h0 : MgrInv (createRoom initialManager name now).1 :=
    inv_createRoom _ _ _ (fun q hq => absurd hq (List.not_mem_nil q))
  have h2 := inv_run ops _ h0 p hp
  unfold RoomInv at h2
  refine ⟨h2, fun hlen => ?_, fun hge => ?_⟩ <;> omega

/-- Witness for C3 at the empty operation sequence. -/
theorem claim_C3_witness :
    ((0 : Nat), ({ id := 0, name := "Room 0", createdAt := 0, hostId := none,
                   queue := [], currentIndex := -1,
                   playbackState := PlaybackState.paused,
                   startedAt := 0, elapsed := 0, users := [], skipVotes := [],
                   crossfadeDuration := 3 } : Room)) ∈
      (run (createRoom initialManager none 0).1 []).rooms ∧
    (((-1 : Int) = -1 ∨ (0 ≤ (-1 : Int) ∧ (-1 : Int) < ([] : List Track).length)) ∧
      (([] : List Track).length = 0 → (-1 : Int) = -1) ∧
      (0 ≤ (-1 : Int) → (-1 : Int) < ([] : List Track).length)) := by
  constructor
  · decide
  · exact claim_C3 none 0 []
      ((0 : Nat), { id := 0, name := "Room 0", createdAt := 0, hostId := none,
                    queue := [], currentIndex := -1,
                    playbackState := PlaybackState.paused,
                    startedAt := 0, elapsed := 0, users := [], skipVotes := [],
                    crossfadeDuration := 3 }) (by decide)

theorem roomForUser_elim {m : RoomManager} {u key : Nat} {room : Room}
    (h : roomForUser m u = some (key, room)) :
    ∃ conn : Conn, mapGet m.connections u = some conn ∧ conn.roomId = key ∧
      mapGet m.rooms key = some room := by
  unfold roomForUser at h
  split at h
  · exact absurd h (by simp)
  rename_i conn hc
  cases hr : mapGet m.rooms conn.roomId with
  | none => rw [hr] at h; simp at h
  | some r =>
    rw [hr] at h
    simp only [Option.map_some', Option.some.injEq, Prod.mk.injEq] at h
    exact ⟨conn, hc, h.1, by rw [← h.1, hr, h.2]⟩

/-- C6: `play` while the room is already playing, and `pause` while it is
already paused, leave the manager state unchanged and emit no message. -/
theorem claim_C6 (m : RoomManager) (u : Nat) (now : ℚ) (key : Nat) (room : Room)
    (h : roomForUser m u = some (key, room)) :
    (room.playbackState = PlaybackState.playing → play m u now = (m, [])) ∧
    (room.playbackState = PlaybackState.paused → pause m u now = (m, [])) := by
  constructor
  · intro hp
    unfold play
    rw [h]
    dsimp only
    rw [if_pos (Or.inr hp)]
  · intro hp
    unfold pause
    rw [h]
    dsimp only
    rw [if_pos hp]

/-- Witness for C6: a second `pause` on a freshly joined (paused) room is a
no-op with no broadcast. -/
theorem claim_C6_witness :
    pause (joinRoom (createRoom initialManager none 0).1 0 (some "A") 5 0).1 1 99 =
      ((joinRoom (createRoom initialManager none 0).1 0 (some "A") 5 0).1, []) :=
  (claim_C6 (joinRoom (createRoom initialManager none 0).1 0 (some "A") 5 0).1 1 99 0
    { id := 0, name := "Room 0", createdAt := 0, hostId := some 1, queue := [],
      currentIndex := -1, playbackState := PlaybackState.paused, startedAt := 0,
      elapsed := 0, users := [(1, { id := 1, name := "A", color := "#FF5722" })],
      skipVotes := [], crossfadeDuration := 3 }
    (by decide)).2 (by decide)

/-- C5: pausing at `t1` and resuming at `t2` restores the playing clock:
afterwards the room is playing, `startedAt = t2 - elapsed * 1000` with
`elapsed = (t1 - startedAt) / 1000`, and the observed position
`(t2 - startedAt') / 1000` equals the position at the moment of pausing. -/
theorem claim_C5 (m : RoomManager) (u : Nat) (t1 t2 : ℚ) (key : Nat) (room : Room)
    (h : roomForUser m u = some (key, room))
    (hplay : room.playbackState = PlaybackState.playing)
    (hci : room.currentIndex ≠ -1)
    (h12 : t1 ≤ t2) :
    ∃ room2 : Room,
      mapGet (play (pause m u t1).1 u t2).1.rooms key = some room2 ∧
      room2.playbackState = PlaybackState.playing ∧
      room2.startedAt = t2 - ((t1 - room.startedAt) / 1000) * 1000 ∧
      (t2 - room2.startedAt) / 1000 = (t1 - room.startedAt) / 1000 := by
  obtain ⟨conn, hc, hkey, hg⟩ := roomForUser_elim h
  subst hkey
  have hne : ¬room.playbackState = PlaybackState.paused := by
    rw [hplay]; intro hcon; cases hcon
  have hp1 : (pause m u t1).1 = { m with rooms := mapSet m.rooms conn.roomId { room with elapsed := (t1 - room.startedAt) / 1000, playbackState := PlaybackState.paused } } := by
    unfold pause
    rw [h]
    dsimp only
    rw [if_neg hne]
  have hr2 : roomForUser (pause m u t1).1 u = some (conn.roomId, { room with elapsed := (t1 - room.startedAt) / 1000, playbackState := PlaybackState.paused }) := by
    rw [hp1]
    unfold roomForUser
    dsimp only
    rw [hc]
    dsimp only
    rw [mapGet_mapSet_self]
    rfl
  have hne2 : ¬(({ room with elapsed := (t1 - room.startedAt) / 1000, playbackState := PlaybackState.paused } : Room).currentIndex = -1 ∨ ({ room with elapsed := (t1 - room.startedAt) / 1000, playbackState := PlaybackState.paused } : Room).playbackState = PlaybackState.playing) := by
    push_neg
    constructor
    · exact hci
    · intro hcon; cases hcon
  refine ⟨{ room with elapsed := (t1 - room.startedAt) / 1000, startedAt := t2 - ((t1 - room.startedAt) / 1000) * 1000, playbackState := PlaybackState.playing }, ?_, rfl, rfl, by ring⟩
  unfold play
  rw [hr2]
  dsimp only
  rw [if_neg hne2]
  dsimp only
  rw [hp1]
  dsimp only
  rw [mapGet_mapSet_self]

/-- Witness for C5: pause at 40000 ms, resume at 100000 ms on a playing
room anchored at 0; the restored position is 40 s. -/
theorem claim_C5_witness :
    ∃ room2 : Room,
      mapGet (play (pause (addTrack (joinRoom (createRoom initialManager none 0).1 0
          (some "A") 5 0).1 1 ⟨"dQw4w9WgXcQ", "T", "th"⟩ 0).1 1 40000).1 1 100000).1.rooms
          0 = some room2 ∧
      room2.playbackState = PlaybackState.playing ∧
      room2.startedAt = 100000 - ((40000 - (0 : ℚ)) / 1000) * 1000 ∧
      (100000 - room2.startedAt) / 1000 = (40000 - (0 : ℚ)) / 1000 :=
  claim_C5 (addTrack (joinRoom (createRoom initialManager none 0).1 0
      (some "A") 5 0).1 1 ⟨"dQw4w9WgXcQ", "T", "th"⟩ 0).1 1 40000 100000 0
    { id := 0, name := "Room 0", createdAt := 0, hostId := some 1,
      queue := [{ id := 2, youtubeId := "dQw4w9WgXcQ", title := "T", thumbnail := "th",
                  duration := 0, addedBy := 1, addedByName := "A" }],
      currentIndex := 0, playbackState := PlaybackState.playing, startedAt := 0,
      elapsed := 0, users := [(1, { id := 1, name := "A", color := "#FF5722" })],
      skipVotes := [], crossfadeDuration := 3 }
    (by decide) (by decide) (by decide) (by norm_num)

/-- C7 counterexample: joining with the whitespace-only name `" "` stores
the empty string, not `"Anonymous"` — the `|| "Anonymous"` default fires
before trimming, so a nonempty all-whitespace name trims to `""`. -/
theorem claim_C7_counterexample :
    ((mapGet (joinRoom (createRoom initialManager none 0).1 0 (some " ") 5 0).1.rooms
        0).bind (fun r => mapGet r.users 1)).map User.name = some "" ∧
      some "" ≠ some "Anonymous" := by
  constructor
  · decide
  · decide

/-- Stored-name rule as the amended claim words it: substitute
`"Anonymous"` only when `userName` is absent or exactly the empty string,
then trim and truncate to 24 characters (so a whitespace-only `userName`
yields the empty stored name). -/
def amendedStoredName (userName : Option String) : String :=
  jsSlice (jsTrim (match userName with
    | none => "Anonymous"
    | some s => if s = "" then "Anonymous" else s)) 24

/-- C7 (amended): for every successful join the stored user name is
obtained by substituting `"Anonymous"` only for an absent or empty
`userName`, then trimming and truncating to 24 characters. -/
theorem claim_C7 (m : RoomManager) (rid : Nat) (userName : Option String)
    (ws : Nat) (now : ℚ) (room : Room)
    (hr : mapGet m.rooms rid = some room) :
    ∃ room2 : Room,
      mapGet (joinRoom m rid userName ws now).1.rooms rid = some room2 ∧
      mapGet room2.users m.nextId = some
        { id := m.nextId, name := amendedStoredName userName,
          color := USER_COLORS.getD (room.users.length % USER_COLORS.length) "" } := by
  unfold joinRoom
  rw [hr]
  dsimp only
  refine ⟨_, mapGet_mapSet_self _ _ _, ?_⟩
  rw [mapGet_mapSet_self]
  unfold amendedStoredName jsOrString
  rfl

/-- Witness for C7: joining with `"  Alice  "` stores `"Alice"`. -/
theorem claim_C7_witness :
    ∃ room2 : Room,
      mapGet (joinRoom (createRoom initialManager none 0).1 0 (some "  Alice  ") 5
        0).1.rooms 0 = some room2 ∧
      mapGet room2.users 1 = some
        { id := 1, name := amendedStoredName (some "  Alice  "),
          color := USER_COLORS.getD (0 % USER_COLORS.length) "" } :=
  claim_C7 (createRoom initialManager none 0).1 0 (some "  Alice  ") 5 0
    { id := 0, name := "Room 0", createdAt := 0, hostId := none, queue := [],
      currentIndex := -1, playbackState := PlaybackState.paused, startedAt := 0,
      elapsed := 0, users := [], skipVotes := [], crossfadeDuration := 3 }
    (by decide)

/-- C8 counterexample: a chat message whose `text` is the number 42 is not
coerced to the empty string — `String(text || "")` stringifies a truthy
non-string, so `"42"` is broadcast. -/
theorem claim_C8_counterexample :
    (chat (joinRoom (createRoom initialManager none 0).1 0 (some "Alice") 5 0).1 1
        (JSVal.vNum 42) 7).2 = [(5, Msg.chatMessage 1 "Alice" "42" 7)] ∧
      [(5, Msg.chatMessage 1 "Alice" "42" 7)] ≠ ([] : List (Nat × Msg)) := by
  constructor
  · decide
  · decide

/-- The chat sanitizer as the amended claim words it: a falsy `text`
(null, `0`, `false` or the empty string) becomes the empty string, any
other non-string value its JS string representation; the result is
trimmed and truncated to 500 characters. -/
def amendedChatSanitize (text : JSVal) : String :=
  jsSlice (jsTrim (if text.truthy then text.toJSString else "")) 500

/-- C8 (amended): the chat text is sanitized by stringifying truthy
values and mapping falsy ones to `""`, then trimming and truncating to
500 characters; an empty result is dropped with no state change and no
broadcast, and otherwise exactly one `chat:message` with the sanitized
text and `timestamp = now` is delivered to every connected participant,
the sender included, with no room state stored. -/
theorem claim_C8 (m : RoomManager) (u : Nat) (text : JSVal) (now : ℚ)
    (conn : Conn) (room : Room) (user : User)
    (hc : mapGet m.connections u = some conn)
    (hr : mapGet m.rooms conn.roomId = some room)
    (hu : mapGet room.users u = some user) :
    chatSanitize text = amendedChatSanitize text ∧
    chat m u text now =
      (m, if chatSanitize text = "" then []
          else broadcastToRoom m conn.roomId
            (Msg.chatMessage u user.name (chatSanitize text) now) none) ∧
    (chatSanitize text ≠ "" →
      (conn.ws, Msg.chatMessage u user.name (chatSanitize text) now) ∈
        (chat m u text now).2) := by
  have hsan : chatSanitize text = amendedChatSanitize text := by
    unfold chatSanitize amendedChatSanitize
    cases htr : text.truthy <;> simp [htr, JSVal.toJSString]
  have hchat : chat m u text now =
      (m, if chatSanitize text = "" then []
          else broadcastToRoom m conn.roomId
            (Msg.chatMessage u user.name (chatSanitize text) now) none) := by
    unfold chat
    rw [hc]
    dsimp only
    rw [hr]
    dsimp only
    rw [hu]
    dsimp only
    split <;> rfl
  refine ⟨hsan, hchat, fun hne => ?_⟩
  rw [hchat]
  dsimp only
  rw [if_neg hne]
  unfold broadcastToRoom
  rw [hr]
  exact List.mem_filterMap.mpr ⟨(u, user), mapGet_mem hu, by rw [hc]; simp⟩

/-- Witness for C8: `"  hi  "` from Bob is trimmed and broadcast to the
room, Bob included. -/
theorem claim_C8_witness :
    chatSanitize (JSVal.vStr "  hi  ") = amendedChatSanitize (JSVal.vStr "  hi  ") ∧
    chat (joinRoom (createRoom initialManager none 0).1 0 (some "Bob") 6 0).1 1
        (JSVal.vStr "  hi  ") 9 =
      ((joinRoom (createRoom initialManager none 0).1 0 (some "Bob") 6 0).1,
        if chatSanitize (JSVal.vStr "  hi  ") = "" then []
        else broadcastToRoom (joinRoom (createRoom initialManager none 0).1 0
            (some "Bob") 6 0).1 0
          (Msg.chatMessage 1 "Bob" (chatSanitize (JSVal.vStr "  hi  ")) 9) none) ∧
    (chatSanitize (JSVal.vStr "  hi  ") ≠ "" →
      ((6 : Nat), Msg.chatMessage 1 "Bob" (chatSanitize (JSVal.vStr "  hi  ")) 9) ∈
        (chat (joinRoom (createRoom initialManager none 0).1 0 (some "Bob") 6 0).1 1
          (JSVal.vStr "  hi  ") 9).2) :=
  claim_C8 (joinRoom (createRoom initialManager none 0).1 0 (some "Bob") 6 0).1 1
    (JSVal.vStr "  hi  ") 9 ⟨6, 0⟩
    { id := 0, name := "Room 0", createdAt := 0, hostId := some 1, queue := [],
      currentIndex := -1, playbackState := PlaybackState.paused, startedAt := 0,
      elapsed := 0, users := [(1, { id := 1, name := "Bob", color := "#FF5722" })],
      skipVotes := [], crossfadeDuration := 3 }
    { id := 1, name := "Bob", color := "#FF5722" }
    (by decide) (by decide) (by decide)

/-- The leave operation as claim C4 words it (refinement target): remove
`u` from both coordinator indices, from the room's users and skip votes;
broadcast `user:left` to the remaining sessions only; migrate the host to
the first remaining user in insertion order when the host departed; and
delete the room immediately when it became empty, with no playback sync. -/
def specLeave (m : RoomManager) (u : Nat) (conn : Conn) (room : Room) :
    RoomManager × List (Nat × Msg) :=
  let users1 := mapDelete room.users u
  let votes1 := setDelete room.skipVotes u
  let hostId1 :=
    if room.hostId = some u ∧ users1.length > 0 then users1.head?.map Prod.fst
    else room.hostId
  let mMid : RoomManager :=
    { m with connections := mapDelete m.connections u,
             wsToUser := mapDelete m.wsToUser conn.ws,
             rooms := mapSet m.rooms conn.roomId { room with users := users1, skipVotes := votes1 } }
  let msgs := broadcastToRoom mMid conn.roomId (Msg.userLeft u) none
  let mFin :=
    if users1.length = 0 then { mMid with rooms := mapDelete m.rooms conn.roomId }
    else { mMid with rooms := mapSet m.rooms conn.roomId { room with users := users1, skipVotes := votes1, hostId := hostId1 } }
  (mFin, msgs)

/-- C4: every leave of a user bound to an existing room behaves exactly as
the claim describes (`specLeave`): index cleanup, vote removal, the
`user:left` broadcast to the remaining sessions only, host migration in
insertion order, and immediate deletion of an emptied room. -/
theorem claim_C4 (m : RoomManager) (u : Nat) (conn : Conn) (room : Room)
    (hc : mapGet m.connections u = some conn)
    (hr : mapGet m.rooms conn.roomId = some room) :
    leaveRoom m u = specLeave m u conn room := by
  unfold leaveRoom specLeave
  rw [hc]
  dsimp only
  rw [hr]
  dsimp only
  split_ifs <;>
    first
      | (simp only [mapSet_mapSet_self, mapDelete_mapSet_self]; done)
      | (exfalso; dsimp only at *; omega)

/-- Witness for C4: the host (Alice) leaves a two-user room; Bob becomes
host and is the only recipient of `user:left`. -/
theorem claim_C4_witness :
    leaveRoom (joinRoom (joinRoom (createRoom initialManager none 0).1 0 (some "A") 5
        0).1 0 (some "B") 6 0).1 1 =
      specLeave (joinRoom (joinRoom (createRoom initialManager none 0).1 0 (some "A")
          5 0).1 0 (some "B") 6 0).1 1 ⟨5, 0⟩
        { id := 0, name := "Room 0", createdAt := 0, hostId := some 1,
          queue := [], currentIndex := -1, playbackState := PlaybackState.paused,
          startedAt := 0, elapsed := 0,
          users := [(1, { id := 1, name := "A", color := "#FF5722" }),
                    (2, { id := 2, name := "B", color := "#FF9800" })],
          skipVotes := [], crossfadeDuration := 3 } :=
  claim_C4 (joinRoom (joinRoom (createRoom initialManager none 0).1 0 (some "A") 5
      0).1 0 (some "B") 6 0).1 1 ⟨5, 0⟩
    { id := 0, name := "Room 0", createdAt := 0, hostId := some 1,
      queue := [], currentIndex := -1, playbackState := PlaybackState.paused,
      startedAt := 0, elapsed := 0,
      users := [(1, { id := 1, name := "A", color := "#FF5722" }),
                (2, { id := 2, name := "B", color := "#FF9800" })],
      skipVotes := [], crossfadeDuration := 3 }
    (by decide) (by decide)

/-- The queue-removal fix-up exactly as claim C1 words it (refinement
target), applied after deleting index `i`: decrement before the cursor;
on the cursor, stop if the queue emptied, clamp to the new last index if
the removed track was last, otherwise restart the slid-in track; after
the cursor, change nothing; votes are cleared exactly on the cursor. -/
def specRemoveFixup (room : Room) (i : Nat) (now : ℚ) : Room :=
  let q := room.queue.eraseIdx i
  if (i : Int) < room.currentIndex then
    { room with queue := q, currentIndex := room.currentIndex - 1 }
  else if (i : Int) = room.currentIndex ∧ q.length = 0 then
    { room with queue := q, currentIndex := -1, playbackState := PlaybackState.paused, elapsed := 0, skipVotes := [] }
  else if (i : Int) = room.currentIndex ∧ (i : Int) ≥ (q.length : Int) then
    { room with queue := q, currentIndex := (q.length : Int) - 1, elapsed := 0, startedAt := now, playbackState := PlaybackState.playing, skipVotes := [] }
  else if (i : Int) = room.currentIndex then
    { room with queue := q, elapsed := 0, startedAt := now, playbackState := PlaybackState.playing, skipVotes := [] }
  else
    { room with queue := q }

/-- C1: a permitted `queue:remove` (requester is host or added the track)
of the track at index `i` updates the room exactly as `specRemoveFixup`
describes, with the five mutually exclusive fix-up cases of the claim. -/
theorem claim_C1 (m : RoomManager) (u tid : Nat) (now : ℚ) (conn : Conn)
    (room : Room) (i : Nat) (track : Track)
    (hc : mapGet m.connections u = some conn)
    (hr : mapGet m.rooms conn.roomId = some room)
    (hf : room.queue.findIdx? (fun t => t.id == tid) = some i)
    (hq : room.queue.get? i = some track)
    (hperm : room.hostId = some u ∨ track.addedBy = u) :
    mapGet (removeTrack m u tid now).1.rooms conn.roomId =
      some (specRemoveFixup room i now) := by
  unfold removeTrack specRemoveFixup
  rw [hc]
  dsimp only
  rw [hr]
  dsimp only
  rw [hf]
  dsimp only
  rw [hq]
  dsimp only
  rw [if_neg (by intro hcon; exact hperm.elim hcon.1 hcon.2)]
  dsimp only
  rw [mapGet_mapSet_self]
  congr 1
  split_ifs <;> first | rfl | (exfalso; omega)

/-- Witness for C1: in a three-track queue playing index 1, the host
removes the playing track; the slid-in track restarts at the cursor. -/
theorem claim_C1_witness :
    mapGet (removeTrack (skip (addTrack (addTrack (addTrack (joinRoom (createRoom
        initialManager none 0).1 0 (some "A") 5 0).1 1 ⟨"a", "A", "t"⟩ 0).1 1
        ⟨"b", "B", "t"⟩ 0).1 1 ⟨"c", "C", "t"⟩ 0).1 1 50).1 1 3 999).1.rooms 0 =
      some (specRemoveFixup
        { id := 0, name := "Room 0", createdAt := 0, hostId := some 1,
          queue := [{ id := 2, youtubeId := "a", title := "A", thumbnail := "t",
                      duration := 0, addedBy := 1, addedByName := "A" },
                    { id := 3, youtubeId := "b", title := "B", thumbnail := "t",
                      duration := 0, addedBy := 1, addedByName := "A" },
                    { id := 4, youtubeId := "c", title := "C", thumbnail := "t",
                      duration := 0, addedBy := 1, addedByName := "A" }],
          currentIndex := 1, playbackState := PlaybackState.playing, startedAt := 50,
          elapsed := 0, users := [(1, { id := 1, name := "A", color := "#FF5722" })],
          skipVotes := [], crossfadeDuration := 3 } 1 999) :=
  claim_C1 (skip (addTrack (addTrack (addTrack (joinRoom (createRoom
      initialManager none 0).1 0 (some "A") 5 0).1 1 ⟨"a", "A", "t"⟩ 0).1 1
      ⟨"b", "B", "t"⟩ 0).1 1 ⟨"c", "C", "t"⟩ 0).1 1 50).1 1 3 999 ⟨5, 0⟩
    { id := 0, name := "Room 0", createdAt := 0, hostId := some 1,
      queue := [{ id := 2, youtubeId := "a", title := "A", thumbnail := "t",
                  duration := 0, addedBy := 1, addedByName := "A" },
                { id := 3, youtubeId := "b", title := "B", thumbnail := "t",
                  duration := 0, addedBy := 1, addedByName := "A" },
                { id := 4, youtubeId := "c", title := "C", thumbnail := "t",
                  duration := 0, addedBy := 1, addedByName := "A" }],
      currentIndex := 1, playbackState := PlaybackState.playing, startedAt := 50,
      elapsed := 0, users := [(1, { id := 1, name := "A", color := "#FF5722" })],
      skipVotes := [], crossfadeDuration := 3 } 1
    { id := 3, youtubeId := "b", title := "B", thumbnail := "t", duration := 0,
      addedBy := 1, addedByName := "A" }
    (by decide) (by decide) (by decide) (by decide) (Or.inl (by decide))

/-- The skip-vote operation exactly as claim C2 words it (refinement
target): no-op when nothing is playing; otherwise insert the voter into
the vote set, broadcast `skip:votes` with `current = |skipVotes|` and
`needed = ceil(|users| / 2)`, and on reaching the threshold clear the
votes and either start the next track (`currentIndex + 1`, elapsed 0,
anchored at `now`, playing) or stop playback (`currentIndex = -1`,
paused, elapsed 0), followed by the `queue:updated` and `playback:sync`
broadcasts. -/
def specSkip (m : RoomManager) (key : Nat) (room : Room) (u : Nat) (now : ℚ) :
    RoomManager × List (Nat × Msg) :=
  if room.currentIndex = -1 then (m, [])
  else
    let votes := setAdd room.skipVotes u
    let room1 := { room with skipVotes := votes }
    let m1 := { m with rooms := mapSet m.rooms key room1 }
    let needed := ceilHalf room1.users.length
    let current := room1.skipVotes.length
    let voteMsgs := broadcastToRoom m1 key (Msg.skipVotes current needed) none
    if current ≥ needed then
      let room2 :=
        if room1.currentIndex < (room1.queue.length : Int) - 1 then
          { room1 with skipVotes := [], currentIndex := room1.currentIndex + 1, elapsed := 0, startedAt := now, playbackState := PlaybackState.playing }
        else
          { room1 with skipVotes := [], currentIndex := -1, playbackState := PlaybackState.paused, elapsed := 0 }
      let m2 := { m1 with rooms := mapSet m1.rooms key room2 }
      (m2, voteMsgs ++ (broadcastToRoom m2 key (Msg.queueUpdated room2.queue room2.currentIndex) none ++ broadcastPlaybackSync m2 key now))
    else (m1, voteMsgs)

/-- C2: for a connected voter in a room satisfying I1, `skip` behaves
exactly as `specSkip` describes; the vote set ignores repeats, and the
majority threshold `ceil(n/2)` is 1, 1, 2, 2 for 1–4 users. -/
theorem claim_C2 (m : RoomManager) (u : Nat) (now : ℚ) (key : Nat) (room : Room)
    (h : roomForUser m u = some (key, room))
    (hid : room.id = key)
    (hinv : RoomInv room) :
    skip m u now = specSkip m key room u now ∧
    (u ∈ room.skipVotes → setAdd room.skipVotes u = room.skipVotes) ∧
    ceilHalf 1 = 1 ∧ ceilHalf 2 = 1 ∧ ceilHalf 3 = 2 ∧ ceilHalf 4 = 2 := by
  refine ⟨?_, fun hm => setAdd_of_mem hm, rfl, rfl, rfl, rfl⟩
  unfold skip specSkip
  rw [h]
  dsimp only
  rw [hid]
  by_cases hci : room.currentIndex = -1
  · rw [if_pos hci, if_pos hci]
  · rw [if_neg hci, if_neg hci]
    by_cases hth : (setAdd room.skipVotes u).length ≥ ceilHalf room.users.length
    · rw [if_pos hth, if_pos hth]
      unfold nextTrack
      dsimp only
      rw [mapGet_mapSet_self]
      dsimp only
      have hlen : ¬room.queue.length = 0 := by
        unfold RoomInv at hinv
        intro h0
        rw [h0] at hinv
        omega
      rw [if_neg hlen]
    · rw [if_neg hth, if_neg hth]

/-- Witness for C2: the single user's vote meets the threshold and the
room advances from track 0 to track 1. -/
theorem claim_C2_witness :
    skip (addTrack (addTrack (joinRoom (createRoom initialManager none 0).1 0
        (some "A") 5 0).1 1 ⟨"a", "A", "t"⟩ 0).1 1 ⟨"b", "B", "t"⟩ 0).1 1 77 =
      specSkip (addTrack (addTrack (joinRoom (createRoom initialManager none 0).1 0
          (some "A") 5 0).1 1 ⟨"a", "A", "t"⟩ 0).1 1 ⟨"b", "B", "t"⟩ 0).1 0
        { id := 0, name := "Room 0", createdAt := 0, hostId := some 1,
          queue := [{ id := 2, youtubeId := "a", title := "A", thumbnail := "t",
                      duration := 0, addedBy := 1, addedByName := "A" },
                    { id := 3, youtubeId := "b", title := "B", thumbnail := "t",
                      duration := 0, addedBy := 1, addedByName := "A" }],
          currentIndex := 0, playbackState := PlaybackState.playing, startedAt := 0,
          elapsed := 0, users := [(1, { id := 1, name := "A", color := "#FF5722" })],
          skipVotes := [], crossfadeDuration := 3 } 1 77 ∧
    ((1 : Nat) ∈ ([] : List Nat) → setAdd [] 1 = []) ∧
    ceilHalf 1 = 1 ∧ ceilHalf 2 = 1 ∧ ceilHalf 3 = 2 ∧ ceilHalf 4 = 2 :=
  claim_C2 (addTrack (addTrack (joinRoom (createRoom initialManager none 0).1 0
      (some "A") 5 0).1 1 ⟨"a", "A", "t"⟩ 0).1 1 ⟨"b", "B", "t"⟩ 0).1 1 77 0
    { id := 0, name := "Room 0", createdAt := 0, hostId := some 1,
      queue := [{ id := 2, youtubeId := "a", title := "A", thumbnail := "t",
                  duration := 0, addedBy := 1, addedByName := "A" },
                { id := 3, youtubeId := "b", title := "B", thumbnail := "t",
                  duration := 0, addedBy := 1, addedByName := "A" }],
      currentIndex := 0, playbackState := PlaybackState.playing, startedAt := 0,
      elapsed := 0, users := [(1, { id := 1, name := "A", color := "#FF5722" })],
      skipVotes := [], crossfadeDuration := 3 }
    (by decide) (by decide) (Or.inr (by decide))

theorem leaveRoom_other (m : RoomManager) (u v : Nat) (conn : Conn)
    (roomv : Room) (userv : User)
    (huv : v ≠ u)
    (hcv : mapGet m.connections v = some conn)
    (hrv : mapGet m.rooms conn.roomId = some roomv)
    (huser : mapGet roomv.users v = some userv) :
    mapGet (leaveRoom m u).1.connections v = some conn ∧
    ∃ r, mapGet (leaveRoom m u).1.rooms conn.roomId = some r ∧
      mapGet r.users v = some userv := by
  unfold leaveRoom
  cases hcu : mapGet m.connections u with
  | none => exact ⟨hcv, roomv, hrv, huser⟩
  | some connu =>
    dsimp only
    cases hru : mapGet m.rooms connu.roomId with
    | none =>
      dsimp only
      refine ⟨?_, roomv, hrv, huser⟩
      rw [mapGet_mapDelete_ne _ _ _ huv, hcv]
    | some roomu =>
      dsimp only
      constructor
      · rw [apply_ite RoomManager.connections]
        dsimp only
        rw [ite_self, mapGet_mapDelete_ne _ _ _ huv, hcv]
      · by_cases hsame : conn.roomId = connu.roomId
        · rw [hsame] at hrv
          rw [hrv] at hru
          injection hru with huvq
          subst huvq
          split <;>
            · have hlen : ¬(mapDelete roomv.users u).length = 0 := by
                intro h0
                have hmem := mapGet_mem (l := mapDelete roomv.users u) (k := v)
                  (v := userv) (by rw [mapGet_mapDelete_ne _ _ _ huv]; exact huser)
                have hnil := List.ne_nil_of_mem hmem
                cases hdel : mapDelete roomv.users u with
                | nil => exact hnil hdel
                | cons a t => rw [hdel] at h0; simp at h0
              rw [if_neg hlen]
              dsimp only
              rw [hsame, mapGet_mapSet_self]
              refine ⟨_, rfl, ?_⟩
              dsimp only
              rw [mapGet_mapDelete_ne _ _ _ huv]
              exact huser
        · rw [apply_ite RoomManager.rooms]
          dsimp only
          split <;> split <;>
            first
              | (rw [mapGet_mapDelete_ne _ _ _ hsame, mapGet_mapSet_ne _ _ _ _ hsame,
                  mapGet_mapSet_ne _ _ _ _ hsame]
                 exact ⟨roomv, hrv, huser⟩)
              | (rw [mapGet_mapSet_ne _ _ _ _ hsame, mapGet_mapSet_ne _ _ _ _ hsame]
                 exact ⟨roomv, hrv, huser⟩)

/-- C9 (implicit): a second `join` from a session already bound to `u1`
creates a fresh user `u2 = nextId` and rebinds `wsToUser[ws]` to `u2`
without removing `u1`: `u1` keeps its connection entry and its room
membership, and the subsequent disconnect of that session removes only
`u2`, so `u1`'s membership — and hence its room — survives. -/
theorem claim_C9 (m : RoomManager) (ws u1 : Nat) (conn1 : Conn) (room1 : Room)
    (user1 : User) (rid2 : Nat) (room2 : Room) (uname : Option String) (now : ℚ)
    (hw : mapGet m.wsToUser ws = some u1)
    (hc1 : mapGet m.connections u1 = some conn1)
    (hr1 : mapGet m.rooms conn1.roomId = some room1)
    (hu1 : mapGet room1.users u1 = some user1)
    (hr2 : mapGet m.rooms rid2 = some room2)
    (hfresh : u1 ≠ m.nextId) :
    mapGet (joinRoom m rid2 uname ws now).1.wsToUser ws = some m.nextId ∧
    mapGet (joinRoom m rid2 uname ws now).1.connections u1 = some conn1 ∧
    (∃ r, mapGet (joinRoom m rid2 uname ws now).1.rooms conn1.roomId = some r ∧
      mapGet r.users u1 = some user1) ∧
    mapGet (leaveByWs (joinRoom m rid2 uname ws now).1 ws).1.connections u1 =
      some conn1 ∧
    (∃ r, mapGet (leaveByWs (joinRoom m rid2 uname ws now).1 ws).1.rooms
        conn1.roomId = some r ∧ mapGet r.users u1 = some user1) := by
  have h1 : mapGet (joinRoom m rid2 uname ws now).1.wsToUser ws = some m.nextId := by
    unfold joinRoom
    rw [hr2]
    dsimp only
    rw [mapGet_mapSet_self]
  have h2 : mapGet (joinRoom m rid2 uname ws now).1.connections u1 = some conn1 := by
    unfold joinRoom
    rw [hr2]
    dsimp only
    rw [mapGet_mapSet_ne _ _ _ _ hfresh, hc1]
  have h3 : ∃ r, mapGet (joinRoom m rid2 uname ws now).1.rooms conn1.roomId =
      some r ∧ mapGet r.users u1 = some user1 := by
    unfold joinRoom
    rw [hr2]
    dsimp only
    by_cases hcase : conn1.roomId = rid2
    · rw [hcase] at hr1
      rw [hr1] at hr2
      injection hr2 with hr12
      subst hr12
      rw [hcase, mapGet_mapSet_self]
      refine ⟨_, rfl, ?_⟩
      dsimp only
      rw [mapGet_mapSet_ne _ _ _ _ hfresh]
      split <;> exact hu1
    · rw [mapGet_mapSet_ne _ _ _ _ hcase]
      exact ⟨room1, hr1, hu1⟩
  obtain ⟨r3, hr3, hu3⟩ := h3
  have hlw : leaveByWs (joinRoom m rid2 uname ws now).1 ws =
      leaveRoom (joinRoom m rid2 uname ws now).1 m.nextId := by
    unfold leaveByWs
    rw [h1]
  have h45 := leaveRoom_other (joinRoom m rid2 uname ws now).1 m.nextId u1 conn1
    r3 user1 hfresh h2 hr3 hu3
  exact ⟨h1, h2, ⟨r3, hr3, hu3⟩, by rw [hlw]; exact h45.1, by rw [hlw]; exact h45.2⟩

/-- Witness for C9: Alice's session re-joins its own room; disconnecting
the socket removes only the second user, and Alice's membership and room
survive. -/
theorem claim_C9_witness :
    mapGet (joinRoom (joinRoom (createRoom initialManager none 0).1 0 (some "A") 5
        0).1 0 (some "X") 5 0).1.wsToUser 5 = some 2 ∧
    mapGet (joinRoom (joinRoom (createRoom initialManager none 0).1 0 (some "A") 5
        0).1 0 (some "X") 5 0).1.connections 1 = some ⟨5, 0⟩ ∧
    (∃ r, mapGet (joinRoom (joinRoom (createRoom initialManager none 0).1 0
        (some "A") 5 0).1 0 (some "X") 5 0).1.rooms 0 = some r ∧
      mapGet r.users 1 = some { id := 1, name := "A", color := "#FF5722" }) ∧
    mapGet (leaveByWs (joinRoom (joinRoom (createRoom initialManager none 0).1 0
        (some "A") 5 0).1 0 (some "X") 5 0).1 5).1.connections 1 = some ⟨5, 0⟩ ∧
    (∃ r, mapGet (leaveByWs (joinRoom (joinRoom (createRoom initialManager none 0).1
        0 (some "A") 5 0).1 0 (some "X") 5 0).1 5).1.rooms 0 = some r ∧
      mapGet r.users 1 = some { id := 1, name := "A", color := "#FF5722" }) :=
  claim_C9 (joinRoom (createRoom initialManager none 0).1 0 (some "A") 5 0).1 5 1
    ⟨5, 0⟩
    { id := 0, name := "Room 0", createdAt := 0, hostId := some 1, queue := [],
      currentIndex := -1, playbackState := PlaybackState.paused, startedAt := 0,
      elapsed := 0, users := [(1, { id := 1, name := "A", color := "#FF5722" })],
      skipVotes := [], crossfadeDuration := 3 }
    { id := 1, name := "A", color := "#FF5722" } 0
    { id := 0, name := "Room 0", createdAt := 0, hostId := some 1, queue := [],
      currentIndex := -1, playbackState := PlaybackState.paused, startedAt := 0,
      elapsed := 0, users := [(1, { id := 1, name := "A", color := "#FF5722" })],
      skipVotes := [], crossfadeDuration := 3 }
    (some "X") 0
    (by decide) (by decide) (by decide) (by decide) (by decide) (by decide)

end Jukebox
